import Mathlib

/-!
Verification of the MettaModeler FCM simulation engine
(`python_sim/simulate.py`).

The simulator, its construction from node/edge description lists, the
baseline/scenario comparison pipeline and the fuzzy direction classifier
are embedded as pure functions over an arbitrary `LinearOrderedField`
(Python floats are modelled as exact field elements; the concrete
activation functions `sigmoid`, `tanh`, `relu` are interpreted over `ℝ`).
`ValueError` raising code is modelled with `Except String`.
-/

namespace MettaSim

/-- Normalized node description, the output of `normalize_node`
(fields `id`, `value`, `label`, `type`). -/
structure NodeIn (α : Type) where
  nid : String
  value : α
  label : String
  ntype : String

/-- Normalized edge description, the output of `normalize_edge`
(fields `source`, `target`, `weight`). -/
structure EdgeIn (α : Type) where
  source : String
  target : String
  weight : α

variable {α : Type} [LinearOrderedField α]

/-- Insertion order of node ids in the `networkx` graph: `add_node` keeps the
first-seen position of an id (`simulate.py` lines 130-137), so the canonical
`node_order` (line 158) lists each id at its first occurrence. -/
def insertionOrder (nodes : List (NodeIn α)) : List String :=
  nodes.foldl (fun acc n => if n.nid ∈ acc then acc else acc ++ [n.nid]) []

/-- Value stored for id `i` by the `add_node` loop: a repeated `add_node`
overwrites the `value` attribute, so the last occurrence wins; an id never
added reads as `0` (such an id is never looked up by the engine). -/
def nodeValue (nodes : List (NodeIn α)) (i : String) : α :=
  ((nodes.filter (fun n => decide (n.nid = i))).getLast?).elim 0 (fun n => n.value)

/-- Weight of the stored edge `s → t`: edges whose source or target is not a
graph node are skipped (`simulate.py` lines 144-148), a repeated `add_edge`
overwrites the weight (last wins), and the adjacency matrix reads `0` for an
absent edge. -/
def edgeWeight (order : List String) (edges : List (EdgeIn α)) (s t : String) : α :=
  ((edges.filter (fun e =>
      decide (e.source = s ∧ e.target = t ∧ e.source ∈ order ∧ e.target ∈ order))).getLast?).elim
    0 (fun e => e.weight)

/-- Parameters of one `FCMSimulator.run_simulation` call: the selected
activation, the canonical node order, the weight matrix, the clamp set and
clamp values, and the convergence threshold. -/
structure SimParams (α : Type) where
  act : α → α
  order : List String
  weight : String → String → α
  clampedNodes : List String
  clampedValues : String → Option α
  threshold : α

/-- Weighted input sum of node `i`: `np.dot(current_values, incoming_weights)`
over `node_order` (`simulate.py` lines 196-203). -/
def weightedSum (p : SimParams α) (s : String → α) (i : String) : α :=
  (p.order.map (fun j => s j * p.weight j i)).sum

/-- New value of node `i` for one iteration (`simulate.py` lines 199-204):
a clamped node takes its provided clamp value, defaulting to its current
value; any other node takes the activation of its weighted input sum. -/
def newNodeValue (p : SimParams α) (s : String → α) (i : String) : α :=
  if i ∈ p.clampedNodes then (p.clampedValues i).getD (s i)
  else p.act (weightedSum p s i)

/-- One synchronous iteration: the whole `new_state` dict is computed from the
pre-iteration graph values (`simulate.py` lines 194-205) and only then written
back (lines 212-213), so every component reads the same old state `s`.
Ids outside the graph are untouched. -/
def stepState (p : SimParams α) (s : String → α) : String → α :=
  fun i => if i ∈ p.order then newNodeValue p s i else s i

/-- Maximum absolute per-node change of one iteration (`simulate.py`
lines 206-207).  The fold over `max` starts at `0`; since every mapped term is
an absolute value and the node list is nonempty in any constructed simulator,
this agrees with Python's `max` over the graph nodes. -/
def maxChange (p : SimParams α) (s s' : String → α) : α :=
  (p.order.map (fun i => |s' i - s i|)).foldr max 0

/-- The `while not converged and iterations < max_iterations` loop
(`simulate.py` lines 191-214), with the remaining iteration budget as fuel.
Returns the list of post-iteration states, in order, and the final
`converged` flag.  The iteration that achieves `maxChange < threshold` is
itself applied and recorded before the loop stops. -/
def simLoop (p : SimParams α) : ℕ → (String → α) → List (String → α) × Bool
  | 0, _ => ([], false)
  | fuel + 1, s =>
    let s' := stepState p s
    if maxChange p s s' < p.threshold then ([s'], true)
    else
      let r := simLoop p fuel s'
      (s' :: r.1, r.2)

/-- Result dict of `FCMSimulator.run_simulation` (`simulate.py` lines
226-233), with state mappings as functions from node id. -/
structure SimResult (α : Type) where
  timeSeries : String → List α
  iterations : ℕ
  converged : Bool
  finalState : String → α
  initialValues : String → α
  clampedNodes : List String

/-- Body of `FCMSimulator.run_simulation` for given parameters, iteration
budget and initial graph values: `timeSeries` starts with the initial value of
every graph node (line 179-182) and gains one entry per node per iteration
(line 214); `iterations` counts executed iterations; `finalState` holds the
graph values after the loop. -/
def runSimCore (p : SimParams α) (maxIterations : ℕ) (init : String → α) : SimResult α :=
  let r := simLoop p maxIterations init
  { timeSeries := fun i => if i ∈ p.order then (init :: r.1).map (fun s => s i) else []
    iterations := r.1.length
    converged := r.2
    finalState := fun i => (r.1.getLastD init) i
    initialValues := init
    clampedNodes := p.clampedNodes }

/-- Names of the three selectable activation functions. -/
inductive ActName where
  | sigmoid : ActName
  | tanh : ActName
  | relu : ActName
deriving DecidableEq

/-- Activation selection in `FCMSimulator.__init__` (`simulate.py` lines
118-125): any name other than `sigmoid`, `tanh`, `relu` raises a
`ValueError`. -/
def parseActivation (s : String) : Except String ActName :=
  if s = "sigmoid" then Except.ok ActName.sigmoid
  else if s = "tanh" then Except.ok ActName.tanh
  else if s = "relu" then Except.ok ActName.relu
  else Except.error ("Unknown activation function: " ++ s)

/-- The state of a constructed `FCMSimulator` instance: the graph (node order,
per-node values, edge weights), the selected activation name, and the run
configuration.  `values` is the mutable part updated in place by
`run_simulation` (lines 212-213). -/
structure Simulator (α : Type) where
  order : List String
  values : String → α
  weight : String → String → α
  actName : ActName
  threshold : α
  maxIterations : ℕ

/-- The `FCMSimulator.__init__` constructor (`simulate.py` lines 85-158):
an empty node list raises first (line 99), then the activation name is checked
(lines 118-125); edges with an unknown endpoint are silently skipped when the
graph is built.  The per-node value checks of lines 107-116 cannot fail here
because node values are already field elements. -/
def fcmMake (nodes : List (NodeIn α)) (edges : List (EdgeIn α)) (actFn : String)
    (threshold : α) (maxIterations : ℕ) : Except String (Simulator α) :=
  if nodes.isEmpty then Except.error "No nodes provided for simulation"
  else
    match parseActivation actFn with
    | Except.error e => Except.error e
    | Except.ok a =>
      Except.ok
        { order := insertionOrder nodes
          values := nodeValue nodes
          weight := edgeWeight (insertionOrder nodes) edges
          actName := a
          threshold := threshold
          maxIterations := maxIterations }

/-- Parameters of a `run_simulation` call on a constructed simulator, given an
interpretation of the three activation names (over `ℝ` this is
`realActivation`; structural claims hold for any interpretation). -/
def Simulator.toParams (sim : Simulator α) (interp : ActName → α → α)
    (clampedN : List String) (clampedV : String → Option α) : SimParams α :=
  { act := interp sim.actName
    order := sim.order
    weight := sim.weight
    clampedNodes := clampedN
    clampedValues := clampedV
    threshold := sim.threshold }

/-- The method `FCMSimulator.run_simulation`: it returns the result dict and,
because lines 212-213 write every iteration's values into `self.graph`, it
leaves the instance holding the run's final state as its node values. -/
def Simulator.run (sim : Simulator α) (interp : ActName → α → α)
    (clampedN : List String) (clampedV : String → Option α) :
    SimResult α × Simulator α :=
  let r := runSimCore (sim.toParams interp clampedN clampedV) sim.maxIterations sim.values
  (r, { sim with values := r.finalState })

/-- The module-level `run_simulation` entry point (`simulate.py` lines
240-317): it validates, constructs a fresh `FCMSimulator` from its arguments,
runs it once, and wraps any raised error as `Simulation failed: ...`
(line 317). -/
def runSimulationTop (interp : ActName → α → α) (nodes : List (NodeIn α))
    (edges : List (EdgeIn α)) (actFn : String) (threshold : α) (maxIterations : ℕ)
    (clampedN : List String) (clampedV : String → Option α) :
    Except String (SimResult α) :=
  match fcmMake nodes edges actFn threshold maxIterations with
  | Except.error e => Except.error ("Simulation failed: " ++ e)
  | Except.ok sim => Except.ok (sim.run interp clampedN clampedV).1

/-- Override of declared node values by an initial-value mapping
(`simulate.py` lines 571-583): every node whose id is in the mapping gets the
mapped value; the loop runs on a deep copy of the caller's nodes, modelled
here by returning a new list. -/
def applyChangedValues (nodes : List (NodeIn α)) (iv : String → Option α) :
    List (NodeIn α) :=
  nodes.map (fun n =>
    match iv n.nid with
    | some v => { n with value := v }
    | none => n)

/-- The scenario clamp-value dict (`simulate.py` lines 589-593): built from the
scenario nodes, keyed by the clamped ids present among them (later duplicate
ids overwrite).  A clamped id that is not a node id is absent, so
`clamped_values.get` falls back to the node's current value. -/
def clampedValuesFrom (scenarioNodes : List (NodeIn α)) (clampedN : List String) :
    String → Option α :=
  fun i =>
    if i ∈ clampedN then
      ((scenarioNodes.filter (fun n => decide (n.nid = i))).getLast?).map (fun n => n.value)
    else none

/-- Result dict of `run_baseline_scenario_comparison` (`simulate.py` lines
660-670).  The per-node `impactMetrics` block (lines 639-651) is not modelled:
no claim mentions it, and with both runs succeeding on the same node set it
cannot affect the call's success. -/
structure CompResult (α : Type) where
  baselineFinalState : String → α
  comparisonFinalState : String → α
  baselineTimeSeries : String → List α
  comparisonTimeSeries : String → List α
  deltaFinalState : String → α
  converged : Bool
  iterations : ℕ
  clampedNodes : List String

/-- The `run_baseline_scenario_comparison` pipeline (`simulate.py` lines
523-676): deep-copy the caller's nodes twice, apply the baseline and scenario
initial-value overrides to the respective copies, run two simulations over the
same edges, and combine.  A failure of either run fails the whole comparison
(wrapped at line 676). -/
def runComparison (interp : ActName → α → α) (nodes : List (NodeIn α))
    (edges : List (EdgeIn α)) (actFn : String) (threshold : α) (maxIterations : ℕ)
    (modelIV scenarioIV : String → Option α) (clampedN : List String) :
    Except String (CompResult α) :=
  let baselineNodes := applyChangedValues nodes modelIV
  let scenarioNodes := applyChangedValues nodes scenarioIV
  let clampedV := clampedValuesFrom scenarioNodes clampedN
  match runSimulationTop interp baselineNodes edges actFn threshold maxIterations []
      (fun _ => none) with
  | Except.error e => Except.error ("Baseline-scenario comparison failed: " ++ e)
  | Except.ok b =>
    match runSimulationTop interp scenarioNodes edges actFn threshold maxIterations
        clampedN clampedV with
    | Except.error e => Except.error ("Baseline-scenario comparison failed: " ++ e)
    | Except.ok s =>
      Except.ok
        { baselineFinalState := b.finalState
          comparisonFinalState := s.finalState
          baselineTimeSeries := b.timeSeries
          comparisonTimeSeries := s.timeSeries
          deltaFinalState := fun i => s.finalState i - b.finalState i
          converged := b.converged && s.converged
          iterations := max b.iterations s.iterations
          clampedNodes := clampedN }

/-- Pointwise `np.sign`. -/
def pySign (x : α) : α :=
  if 0 < x then 1 else if x < 0 then -1 else 0

/-- The `np.trapz` integral of a series with unit spacing: the sum of the
averages of adjacent entries; `0` for series shorter than two entries. -/
def trapz (l : List α) : α :=
  ((l.zip l.tail).map (fun q => (q.1 + q.2) / 2)).sum

/-- The `fuzzy_categorize_direction` classifier (`simulate.py` lines 374-446),
an exact translation of its tie-break cascade.  Empty or length-mismatched
input raises a `ValueError`. -/
def fuzzyCategorizeDirection (baselineSeries scenarioSeries : List α)
    (globalMaxChange : α) (epsilon : α := 1 / 10000) : Except String String :=
  if baselineSeries.isEmpty ∨ scenarioSeries.isEmpty then
    Except.error "Input series must not be empty."
  else if baselineSeries.length ≠ scenarioSeries.length then
    Except.error "Baseline and scenario series must be of equal length."
  else
    let diffSeries := (scenarioSeries.zip baselineSeries).map (fun q => q.1 - q.2)
    let finalDelta := diffSeries.getLastD 0
    let maxAbs := (diffSeries.map (fun d => |d|)).foldr max 0
    let rel := maxAbs / (globalMaxChange + epsilon)
    if rel ≤ 1 / 10 then Except.ok "No Change"
    else
      let mag := if rel > 7 / 10 then "High" else if rel > 3 / 10 then "Medium" else "Low"
      let signs := diffSeries.map pySign
      let nonzeroSigns := signs.filter (fun x => decide (x ≠ 0))
      let crosses :=
        ((nonzeroSigns.zip nonzeroSigns.tail).filter (fun q => decide (q.1 ≠ q.2))).length
      if nonzeroSigns.length > 1 ∧ crosses > 1 then
        Except.ok ("Oscillating (" ++ mag ++ ")")
      else
        let auc := trapz diffSeries
        if rel > 1 / 10 ∧ |finalDelta| < max epsilon (5 / 100 * maxAbs) then
          Except.ok ("Temporary " ++ mag ++ (if auc > 0 then " Increase" else " Decrease"))
        else if finalDelta > epsilon then Except.ok (mag ++ " Increase")
        else if finalDelta < -epsilon then Except.ok (mag ++ " Decrease")
        else if auc > 0 then Except.ok (mag ++ " Increase")
        else if auc < 0 then Except.ok (mag ++ " Decrease")
        else Except.ok "No Change"

/-- Pure iterate of the synchronous step: the graph state before iteration
`t + 1` (equivalently after iteration `t`), had the loop run that far. -/
def iterState (p : SimParams α) (init : String → α) (t : ℕ) : String → α :=
  (stepState p)^[t] init

/-- Convergence test of iteration `t + 1` (0-indexed `t`): the maximum change
from the state after iteration `t` to the state after iteration `t + 1` is
below the threshold. -/
def convAt (p : SimParams α) (init : String → α) (t : ℕ) : Prop :=
  maxChange p (iterState p init t) (iterState p init (t + 1)) < p.threshold

instance (p : SimParams α) (init : String → α) (t : ℕ) : Decidable (convAt p init t) := by
  unfold convAt
  infer_instance

/-- Total extraction from an `Except` with an explicit fallback. -/
def exceptGet {ε β : Type} (d : β) : Except ε β → β
  | Except.ok b => b
  | Except.error _ => d

/-- A small concrete activation over `ℚ`, used to evaluate the generic
engine on concrete inputs. -/
def demoAct : ℚ → ℚ := fun x => x / 2

/-- Concrete run parameters over `ℚ`: two nodes, edge `A → B` of weight `1`,
`B` clamped at `1/4`. -/
def demoParams : SimParams ℚ :=
  { act := demoAct
    order := ["A", "B"]
    weight := fun s t => if s = "A" ∧ t = "B" then 1 else 0
    clampedNodes := ["B"]
    clampedValues := fun i => if i = "B" then some (1 / 4) else none
    threshold := 1 / 100 }

/-- Concrete initial state over `ℚ`: `A = 1`, `B = 0`. -/
def demoInit : String → ℚ := fun i => if i = "A" then 1 else 0

/-- Fallback simulation result used for total extraction in concrete runs. -/
def simResultDefault : SimResult ℚ :=
  { timeSeries := fun _ => []
    iterations := 0
    converged := false
    finalState := fun _ => 0
    initialValues := fun _ => 0
    clampedNodes := [] }

/-- Fallback comparison result used for total extraction in concrete runs. -/
def compResultDefault : CompResult ℚ :=
  { baselineFinalState := fun _ => 0
    comparisonFinalState := fun _ => 0
    baselineTimeSeries := fun _ => []
    comparisonTimeSeries := fun _ => []
    deltaFinalState := fun _ => 0
    converged := false
    iterations := 0
    clampedNodes := [] }

/-- A one-node description list over `ℚ` for concrete pipeline runs. -/
def qNodesDemo : List (NodeIn ℚ) :=
  [⟨"A", 1, "A", "regular"⟩]

/-- A concrete interpretation of the activation names over `ℚ`. -/
def interpQ : ActName → ℚ → ℚ := fun _ => demoAct

/-- The comparison result of a concrete zero-iteration `ℚ` comparison run. -/
def c6Comp : CompResult ℚ :=
  exceptGet compResultDefault
    (runComparison interpQ qNodesDemo [] "sigmoid" 1 0 (fun _ => none) (fun _ => none) [])

/-- The baseline result underlying `c6Comp`. -/
def c6Base : SimResult ℚ :=
  exceptGet simResultDefault
    (runSimulationTop interpQ (applyChangedValues qNodesDemo (fun _ => none)) []
      "sigmoid" 1 0 [] (fun _ => none))

/-- The scenario result underlying `c6Comp`. -/
def c6Scen : SimResult ℚ :=
  exceptGet simResultDefault
    (runSimulationTop interpQ (applyChangedValues qNodesDemo (fun _ => none)) []
      "sigmoid" 1 0 []
      (clampedValuesFrom (applyChangedValues qNodesDemo (fun _ => none)) []))

/-- A concrete simulator instance over `ℚ`. -/
def demoSim : Simulator ℚ :=
  { order := ["A"]
    values := fun _ => 1
    weight := fun _ _ => 0
    actName := ActName.sigmoid
    threshold := 1
    maxIterations := 0 }

end MettaSim

namespace MettaSim

/-- The `sigmoid` activation (`simulate.py` lines 70-72). -/
noncomputable def sigmoid (x : ℝ) : ℝ :=
  1 / (1 + Real.exp (-x))

/-- The `relu` activation (`simulate.py` lines 78-80). -/
noncomputable def relu (x : ℝ) : ℝ :=
  max 0 x

/-- Interpretation of the three activation names over `ℝ`, as assigned to
`self.activation` in `FCMSimulator.__init__` (lines 118-123). -/
noncomputable def realActivation : ActName → ℝ → ℝ
  | ActName.sigmoid => sigmoid
  | ActName.tanh => Real.tanh
  | ActName.relu => relu

/-- Nodes of the synchronous-update test graph: `A = 1`, `B = 0`. -/
def nodesC1 : List (NodeIn ℝ) :=
  [⟨"A", 1, "A", "regular"⟩, ⟨"B", 0, "B", "regular"⟩]

/-- Edges of the synchronous-update test graph: `A → B` weight `1`,
`B → A` weight `0`. -/
def edgesC1 : List (EdgeIn ℝ) :=
  [⟨"A", "B", 1⟩, ⟨"B", "A", 0⟩]

/-- Nodes of the end-to-end test graph: driver `A = 1`, regular `B = 0`. -/
def nodesC2 : List (NodeIn ℝ) :=
  [⟨"A", 1, "A", "driver"⟩, ⟨"B", 0, "B", "regular"⟩]

/-- Edge of the end-to-end test graph: `A → B` weight `0.5`. -/
noncomputable def edgesC2 : List (EdgeIn ℝ) :=
  [⟨"A", "B", 1 / 2⟩]

/-- Run parameters produced by constructing a simulator on the
synchronous-update test graph with sigmoid activation and no clamping. -/
noncomputable def pC1 : SimParams ℝ :=
  { act := sigmoid
    order := ["A", "B"]
    weight := edgeWeight ["A", "B"] edgesC1
    clampedNodes := []
    clampedValues := fun _ => none
    threshold := 1 / 1000 }

/-- Run parameters produced by constructing a simulator on the end-to-end
test graph with tanh activation and no clamping. -/
noncomputable def pC2 : SimParams ℝ :=
  { act := Real.tanh
    order := ["A", "B"]
    weight := edgeWeight ["A", "B"] edgesC2
    clampedNodes := []
    clampedValues := fun _ => none
    threshold := 1 / 10000 }

end MettaSim

namespace MettaSim

/-- Contents of a caller-supplied node dict, for the aliasing model of the
engine's frame behaviour. -/
structure PyNodeObj where
  nid : String
  value : ℚ
  label : String
  ntype : String

/-- A caller-reachable Python dict: either a node dict or an edge dict. -/
inductive PyObj where
  | nodeObj : PyNodeObj → PyObj
  | edgeObj : String → String → ℚ → PyObj

/-- An addressed store of dicts together with the next fresh address; caller
dicts live at addresses below `nextAddr`. -/
structure Heap where
  mem : ℕ → PyObj
  nextAddr : ℕ

/-- The in-place statement `node['value'] = v` on the dict at address `a`. -/
def writeValue (h : Heap) (a : ℕ) (v : ℚ) : Heap :=
  { h with
    mem := fun b =>
      if b = a then
        match h.mem a with
        | PyObj.nodeObj n => PyObj.nodeObj { n with value := v }
        | o => o
      else h.mem b }

/-- Allocation of a fresh dict holding `o`. -/
def allocObj (h : Heap) (o : PyObj) : ℕ × Heap :=
  (h.nextAddr,
    { mem := fun b => if b = h.nextAddr then o else h.mem b
      nextAddr := h.nextAddr + 1 })

/-- One step of copying: allocate a fresh dict holding the contents at `a`
and record its address. -/
def copyStep (acc : List ℕ × Heap) (a : ℕ) : List ℕ × Heap :=
  let q := allocObj acc.2 (acc.2.mem a)
  (acc.1 ++ [q.1], q.2)

/-- Allocation of a fresh copy of every dict in `addrs`, in order: the effect
of `copy.deepcopy` on a list of dicts (`simulate.py` lines 567-568), and
equally of the fresh-dict construction `[normalize_node(node) for node in
nodes]` in `FCMSimulator.__init__` (lines 102-103). -/
def copyObjs (h : Heap) (addrs : List ℕ) : List ℕ × Heap :=
  addrs.foldl copyStep ([], h)

/-- The `id` key of a dict (edge dicts have none). -/
def objId : PyObj → String
  | PyObj.nodeObj n => n.nid
  | PyObj.edgeObj _ _ _ => ""

/-- One step of the initial-value loop: write the mapped value into the dict
at `a` in place when its id is in the mapping. -/
def applyIVStep (iv : String → Option ℚ) (hh : Heap) (a : ℕ) : Heap :=
  match iv (objId (hh.mem a)) with
  | some v => writeValue hh a v
  | none => hh

/-- The initial-value loops of `run_baseline_scenario_comparison`
(`simulate.py` lines 571-583): for each dict in `addrs`, write the mapped
value into it in place when its id is in the mapping. -/
def applyIVHeap (h : Heap) (addrs : List ℕ) (iv : String → Option ℚ) : Heap :=
  addrs.foldl (applyIVStep iv) h

/-- Heap effect of one simulation call on node dicts `nodeAddrs` and edge
dicts `edgeAddrs`: `FCMSimulator.__init__` builds fresh normalized node and
edge dicts (lines 102-103) and reads the originals only; `run_simulation`
writes exclusively into the graph's own attribute store (lines 212-213),
which is freshly built by `add_node`/`add_edge` and is not any caller dict. -/
def simulationCallHeap (h : Heap) (nodeAddrs edgeAddrs : List ℕ) : Heap :=
  (copyObjs (copyObjs h nodeAddrs).2 edgeAddrs).2

/-- Heap effect of one comparison call (`simulate.py` lines 560-670): two deep
copies of the caller's node list, in-place initial-value writes on the two
copies, then two simulation calls (on the copies and the caller's edge
dicts). -/
def comparisonCallHeap (h : Heap) (nodeAddrs edgeAddrs : List ℕ)
    (miv siv : String → Option ℚ) : Heap :=
  let bp := copyObjs h nodeAddrs
  let sp := copyObjs bp.2 nodeAddrs
  let h3 := applyIVHeap sp.2 bp.1 miv
  let h4 := applyIVHeap h3 sp.1 siv
  let h5 := simulationCallHeap h4 bp.1 edgeAddrs
  simulationCallHeap h5 sp.1 edgeAddrs

/-- A concrete caller heap: a node dict at address `0`, an edge dict at
address `1`. -/
def demoHeap : Heap :=
  { mem := fun a =>
      if a = 0 then PyObj.nodeObj ⟨"A", 1, "A", "regular"⟩
      else PyObj.edgeObj "A" "A" 1
    nextAddr := 2 }

/-- A concrete initial-value mapping touching the demo node. -/
def demoIV : String → Option ℚ := fun i => if i = "A" then some 5 else none

end MettaSim

namespace MettaSim

variable {α : Type} [LinearOrderedField α]

lemma iterState_zero (p : SimParams α) (init : String → α) :
    iterState p init 0 = init :=
  rfl

lemma iterState_succ (p : SimParams α) (init : String → α) (t : ℕ) :
    iterState p init (t + 1) = stepState p (iterState p init t) :=
  Function.iterate_succ_apply' (stepState p) t init

lemma iterState_shift (p : SimParams α) (init : String → α) (t : ℕ) :
    iterState p (stepState p init) t = iterState p init (t + 1) :=
  (Function.iterate_succ_apply (stepState p) t init).symm

lemma convAt_shift (p : SimParams α) (init : String → α) (t : ℕ) :
    convAt p (stepState p init) t ↔ convAt p init (t + 1) := by
  unfold convAt
  rw [iterState_shift, iterState_shift]

lemma convAt_zero (p : SimParams α) (init : String → α) :
    convAt p init 0 ↔ maxChange p init (stepState p init) < p.threshold := by
  unfold convAt
  rw [iterState_zero]
  rw [show iterState p init 1 = stepState p init from Function.iterate_one (stepState p) ▸ rfl]

lemma simLoop_succ (p : SimParams α) (f : ℕ) (s : String → α) :
    simLoop p (f + 1) s =
      if maxChange p s (stepState p s) < p.threshold then ([stepState p s], true)
      else ((stepState p s) :: (simLoop p f (stepState p s)).1,
            (simLoop p f (stepState p s)).2) :=
  rfl

lemma simLoop_length_le (p : SimParams α) :
    ∀ (f : ℕ) (s : String → α), (simLoop p f s).1.length ≤ f := by
  intro f
  induction f with
  | zero => intro s; simp [simLoop]
  | succ n ih =>
    intro s
    rw [simLoop_succ]
    split
    · simp
    · simpa using Nat.succ_le_succ (ih (stepState p s))

lemma simLoop_length_pos (p : SimParams α) (f : ℕ) (s : String → α) (hf : 1 ≤ f) :
    1 ≤ (simLoop p f s).1.length := by
  obtain ⟨m, rfl⟩ : ∃ m, f = m + 1 := ⟨f - 1, by omega⟩
  rw [simLoop_succ]
  split <;> simp

lemma simLoop_true_length_pos (p : SimParams α) (f : ℕ) (s : String → α)
    (h : (simLoop p f s).2 = true) : 1 ≤ (simLoop p f s).1.length := by
  cases f with
  | zero => simp [simLoop] at h
  | succ n =>
    rw [simLoop_succ] at h ⊢
    revert h
    split <;> simp

lemma simLoop_states (p : SimParams α) :
    ∀ (f : ℕ) (s : String → α),
      (simLoop p f s).1 =
        (List.range (simLoop p f s).1.length).map (fun t => iterState p s (t + 1)) := by
  intro f
  induction f with
  | zero => intro s; simp [simLoop]
  | succ n ih =>
    intro s
    rw [simLoop_succ]
    split
    · simp [iterState]
    · simp only [List.length_cons, List.range_succ_eq_map, List.map_cons, List.map_map]
      congr 1
      rw [ih (stepState p s)]
      simp only [List.length_map, List.length_range]
      apply List.map_congr_left
      intro t _
      simp [Function.comp, iterState]

lemma simLoop_of_convAt (p : SimParams α) :
    ∀ (k f : ℕ) (s : String → α), (∀ t, t < k → ¬ convAt p s t) → convAt p s k →
      k + 1 ≤ f →
      (simLoop p f s).1.length = k + 1 ∧ (simLoop p f s).2 = true := by
  intro k
  induction k with
  | zero =>
    intro f s _ hc hf
    obtain ⟨m, rfl⟩ : ∃ m, f = m + 1 := ⟨f - 1, by omega⟩
    rw [simLoop_succ, if_pos ((convAt_zero p s).mp hc)]
    simp
  | succ k ih =>
    intro f s hno hc hf
    obtain ⟨m, rfl⟩ : ∃ m, f = m + 1 := ⟨f - 1, by omega⟩
    rw [simLoop_succ, if_neg]
    · have h := ih m (stepState p s)
        (fun t ht => by
          rw [convAt_shift]
          exact hno (t + 1) (by omega))
        (by rw [convAt_shift]; exact hc)
        (by omega)
      simp [h.1, h.2]
    · rw [← convAt_zero]
      exact hno 0 (by omega)

lemma simLoop_charact (p : SimParams α) :
    ∀ (f : ℕ) (s : String → α),
      ((simLoop p f s).2 = true →
        convAt p s ((simLoop p f s).1.length - 1) ∧
        ∀ t, t + 1 < (simLoop p f s).1.length → ¬ convAt p s t) ∧
      ((simLoop p f s).2 = false →
        (simLoop p f s).1.length = f ∧ ∀ t, t < f → ¬ convAt p s t) := by
  intro f
  induction f with
  | zero => intro s; simp [simLoop]
  | succ n ih =>
    intro s
    rw [simLoop_succ]
    by_cases h : maxChange p s (stepState p s) < p.threshold
    · rw [if_pos h]
      refine ⟨fun _ => ⟨?_, ?_⟩, fun hf => by simp at hf⟩
      · simpa using (convAt_zero p s).mpr h
      · intro t ht
        simp at ht
    · rw [if_neg h]
      have IH := ih (stepState p s)
      constructor
      · intro h2
        simp only at h2
        have hrec := IH.1 h2
        have hpos := simLoop_true_length_pos p n (stepState p s) h2
        constructor
        · simp only [List.length_cons, Nat.add_sub_cancel]
          have h' := (convAt_shift p s ((simLoop p n (stepState p s)).1.length - 1)).mp hrec.1
          rwa [show (simLoop p n (stepState p s)).1.length - 1 + 1 =
              (simLoop p n (stepState p s)).1.length from by omega] at h'
        · intro t ht
          simp only [List.length_cons] at ht
          cases t with
          | zero => rw [convAt_zero]; exact h
          | succ t' =>
            rw [← convAt_shift]
            exact hrec.2 t' (by omega)
      · intro h2
        simp only at h2
        have hrec := IH.2 h2
        constructor
        · simp [hrec.1]
        · intro t ht
          cases t with
          | zero => rw [convAt_zero]; exact h
          | succ t' =>
            rw [← convAt_shift]
            exact hrec.2 t' (by omega)

lemma runSimCore_iterations_le (p : SimParams α) (m : ℕ) (init : String → α) :
    (runSimCore p m init).iterations ≤ m :=
  simLoop_length_le p m init

lemma runSimCore_iterations_pos (p : SimParams α) (m : ℕ) (init : String → α)
    (hm : 1 ≤ m) : 1 ≤ (runSimCore p m init).iterations :=
  simLoop_length_pos p m init hm

lemma runSimCore_timeSeries_of_mem (p : SimParams α) (m : ℕ) (init : String → α)
    (i : String) (hi : i ∈ p.order) :
    (runSimCore p m init).timeSeries i =
      (List.range ((runSimCore p m init).iterations + 1)).map
        (fun t => iterState p init t i) := by
  show (if i ∈ p.order then (init :: (simLoop p m init).1).map (fun s => s i) else []) = _
  rw [if_pos hi, simLoop_states p m init]
  simp only [List.length_map, List.length_range, List.range_succ_eq_map, List.map_cons,
    List.map_map]
  show _ = iterState p init 0 i :: _
  rw [iterState_zero]
  rfl

lemma runSimCore_timeSeries_length (p : SimParams α) (m : ℕ) (init : String → α)
    (i : String) (hi : i ∈ p.order) :
    ((runSimCore p m init).timeSeries i).length = (runSimCore p m init).iterations + 1 := by
  rw [runSimCore_timeSeries_of_mem p m init i hi]
  simp

lemma runSimCore_timeSeries_getD (p : SimParams α) (m : ℕ) (init : String → α)
    (i : String) (hi : i ∈ p.order) (t : ℕ)
    (ht : t ≤ (runSimCore p m init).iterations) :
    ((runSimCore p m init).timeSeries i).getD t 0 = iterState p init t i := by
  rw [runSimCore_timeSeries_of_mem p m init i hi]
  rw [List.getD_eq_getElem?_getD, List.getElem?_map, List.getElem?_range (by omega)]
  rfl

lemma runSimCore_finalState (p : SimParams α) (m : ℕ) (init : String → α)
    (i : String) :
    (runSimCore p m init).finalState i =
      iterState p init (runSimCore p m init).iterations i := by
  show ((simLoop p m init).1.getLastD init) i = iterState p init (simLoop p m init).1.length i
  rw [simLoop_states p m init]
  simp only [List.length_map, List.length_range]
  rcases Nat.eq_zero_or_pos (simLoop p m init).1.length with h0 | hpos
  · rw [h0]
    simp [iterState_zero]
  · obtain ⟨k, hk⟩ : ∃ k, (simLoop p m init).1.length = k + 1 :=
      ⟨(simLoop p m init).1.length - 1, by omega⟩
    rw [hk, List.range_succ, List.map_append]
    simp

lemma iterState_clamped_some (p : SimParams α) (init : String → α) (i : String)
    (hi : i ∈ p.order) (hc : i ∈ p.clampedNodes) (v : α)
    (hv : p.clampedValues i = some v) :
    ∀ t, 1 ≤ t → iterState p init t i = v := by
  intro t ht
  obtain ⟨u, rfl⟩ : ∃ u, t = u + 1 := ⟨t - 1, by omega⟩
  rw [iterState_succ]
  show (if i ∈ p.order then newNodeValue p (iterState p init u) i else _) = v
  rw [if_pos hi]
  show (if i ∈ p.clampedNodes then (p.clampedValues i).getD _ else _) = v
  rw [if_pos hc, hv]
  rfl

lemma iterState_clamped_none (p : SimParams α) (init : String → α) (i : String)
    (hi : i ∈ p.order) (hc : i ∈ p.clampedNodes)
    (hv : p.clampedValues i = none) :
    ∀ t, iterState p init t i = init i := by
  intro t
  induction t with
  | zero => rfl
  | succ u ih =>
    rw [iterState_succ]
    show (if i ∈ p.order then newNodeValue p (iterState p init u) i else _) = init i
    rw [if_pos hi]
    show (if i ∈ p.clampedNodes then (p.clampedValues i).getD _ else _) = init i
    rw [if_pos hc, hv]
    exact ih

lemma iterState_unclamped_succ (p : SimParams α) (init : String → α) (i : String)
    (hi : i ∈ p.order) (hn : i ∉ p.clampedNodes) (t : ℕ) :
    iterState p init (t + 1) i = p.act (weightedSum p (iterState p init t) i) := by
  rw [iterState_succ]
  show (if i ∈ p.order then newNodeValue p (iterState p init t) i else _) = _
  rw [if_pos hi]
  show (if i ∈ p.clampedNodes then _ else p.act (weightedSum p (iterState p init t) i)) = _
  rw [if_neg hn]

/-- Claim C3: every run stops at the first iteration whose maximum absolute
change is below the threshold; that iteration is counted in `iterations` and
its state is the final state; `iterations ≤ maxIterations` always, and a run
with no convergent iteration stops at `maxIterations` with
`converged = false`. -/
theorem C3_convergence_stopping (p : SimParams α) (m : ℕ) (init : String → α) :
    (runSimCore p m init).iterations ≤ m ∧
    (∀ i, (runSimCore p m init).finalState i =
      iterState p init (runSimCore p m init).iterations i) ∧
    ((runSimCore p m init).converged = true →
      1 ≤ (runSimCore p m init).iterations ∧
      convAt p init ((runSimCore p m init).iterations - 1) ∧
      ∀ t, t + 1 < (runSimCore p m init).iterations → ¬ convAt p init t) ∧
    ((runSimCore p m init).converged = false →
      (runSimCore p m init).iterations = m ∧ ∀ t, t < m → ¬ convAt p init t) := by
  refine ⟨runSimCore_iterations_le p m init, runSimCore_finalState p m init, ?_, ?_⟩
  · intro h
    have h' : (simLoop p m init).2 = true := h
    have hch := (simLoop_charact p m init).1 h'
    exact ⟨simLoop_true_length_pos p m init h', hch.1, hch.2⟩
  · intro h
    have h' : (simLoop p m init).2 = false := h
    exact (simLoop_charact p m init).2 h'

/-- Claim C4: a node in the clamp set holds its explicit clamp value at every
iteration of the run, and holds its initial value at every iteration when it
is clamped with no explicit value; clamping is re-applied every iteration. -/
theorem C4_clamped_nodes (p : SimParams α) (m : ℕ) (init : String → α)
    (i : String) (hi : i ∈ p.order) (hc : i ∈ p.clampedNodes) (t : ℕ)
    (ht1 : 1 ≤ t) (ht2 : t ≤ (runSimCore p m init).iterations) :
    (∀ v, p.clampedValues i = some v →
      ((runSimCore p m init).timeSeries i).getD t 0 = v) ∧
    (p.clampedValues i = none →
      ((runSimCore p m init).timeSeries i).getD t 0 = init i) := by
  constructor
  · intro v hv
    rw [runSimCore_timeSeries_getD p m init i hi t ht2]
    exact iterState_clamped_some p init i hi hc v hv t ht1
  · intro hv
    rw [runSimCore_timeSeries_getD p m init i hi t ht2]
    exact iterState_clamped_none p init i hi hc hv t

/-- Claim C4 witness: in the concrete `ℚ` run, the clamped node `B` (clamp
value `1/4`) reads `1/4` at iteration `1`. -/
theorem C4_clamped_nodes_witness :
    ((runSimCore demoParams 2 demoInit).timeSeries "B").getD 1 0 = 1 / 4 :=
  (C4_clamped_nodes demoParams 2 demoInit "B" (by decide) (by decide) 1 (by norm_num)
    (runSimCore_iterations_pos demoParams 2 demoInit (by norm_num))).1 (1 / 4) rfl

/-- Claim C5: every node's time series has length `iterations + 1`, its entry
at index `0` is the node's initial value, all per-node series have equal
length, and the entry at index `t` is the state after iteration `t`. -/
theorem C5_timeseries_shape (p : SimParams α) (m : ℕ) (init : String → α)
    (i j : String) (hi : i ∈ p.order) (hj : j ∈ p.order) :
    ((runSimCore p m init).timeSeries i).length = (runSimCore p m init).iterations + 1 ∧
    ((runSimCore p m init).timeSeries i).getD 0 0 = init i ∧
    ((runSimCore p m init).timeSeries i).length =
      ((runSimCore p m init).timeSeries j).length ∧
    ∀ t, t ≤ (runSimCore p m init).iterations →
      ((runSimCore p m init).timeSeries i).getD t 0 = iterState p init t i := by
  refine ⟨runSimCore_timeSeries_length p m init i hi, ?_, ?_, ?_⟩
  · rw [runSimCore_timeSeries_getD p m init i hi 0 (Nat.zero_le _)]
    rfl
  · rw [runSimCore_timeSeries_length p m init i hi,
      runSimCore_timeSeries_length p m init j hj]
  · intro t ht
    exact runSimCore_timeSeries_getD p m init i hi t ht

/-- Claim C5 witness: in the concrete `ℚ` run, node `A`'s series has length
`iterations + 1`, starts at `A`'s initial value `1`, and matches node `B`'s
series in length. -/
theorem C5_timeseries_shape_witness :
    ((runSimCore demoParams 2 demoInit).timeSeries "A").length =
      (runSimCore demoParams 2 demoInit).iterations + 1 ∧
    ((runSimCore demoParams 2 demoInit).timeSeries "A").getD 0 0 = 1 ∧
    ((runSimCore demoParams 2 demoInit).timeSeries "A").length =
      ((runSimCore demoParams 2 demoInit).timeSeries "B").length :=
  have h := C5_timeseries_shape demoParams 2 demoInit "A" "B" (by decide) (by decide)
  ⟨h.1, h.2.1, h.2.2.1⟩

lemma runTopC1 :
    runSimulationTop realActivation nodesC1 edgesC1 "sigmoid" (1 / 1000) 100 []
      (fun _ => none) = Except.ok (runSimCore pC1 100 (nodeValue nodesC1)) :=
  rfl

lemma runTopC2 :
    runSimulationTop realActivation nodesC2 edgesC2 "tanh" (1 / 10000) 50 []
      (fun _ => none) = Except.ok (runSimCore pC2 50 (nodeValue nodesC2)) :=
  rfl

lemma iterC1_one_B : iterState pC1 (nodeValue nodesC1) 1 "B" = sigmoid 1 := by
  rw [iterState_unclamped_succ pC1 (nodeValue nodesC1) "B" (by decide) (by decide) 0,
    iterState_zero]
  show sigmoid ((pC1.order.map
    (fun j => nodeValue nodesC1 j * pC1.weight j "B")).sum) = sigmoid 1
  congr 1
  show nodeValue nodesC1 "A" * edgeWeight ["A", "B"] edgesC1 "A" "B" +
    (nodeValue nodesC1 "B" * edgeWeight ["A", "B"] edgesC1 "B" "B" + 0) = 1
  norm_num [show nodeValue nodesC1 "A" = (1 : ℝ) from rfl,
    show edgeWeight ["A", "B"] edgesC1 "A" "B" = (1 : ℝ) from rfl,
    show nodeValue nodesC1 "B" = (0 : ℝ) from rfl]

lemma iterC1_one_A : iterState pC1 (nodeValue nodesC1) 1 "A" = 1 / 2 := by
  rw [iterState_unclamped_succ pC1 (nodeValue nodesC1) "A" (by decide) (by decide) 0,
    iterState_zero]
  show sigmoid ((pC1.order.map
    (fun j => nodeValue nodesC1 j * pC1.weight j "A")).sum) = 1 / 2
  have h : (pC1.order.map (fun j => nodeValue nodesC1 j * pC1.weight j "A")).sum = 0 := by
    show nodeValue nodesC1 "A" * edgeWeight ["A", "B"] edgesC1 "A" "A" +
      (nodeValue nodesC1 "B" * edgeWeight ["A", "B"] edgesC1 "B" "A" + 0) = 0
    norm_num [show edgeWeight ["A", "B"] edgesC1 "A" "A" = (0 : ℝ) from rfl,
      show edgeWeight ["A", "B"] edgesC1 "B" "A" = (0 : ℝ) from rfl]
  rw [h]
  unfold sigmoid
  rw [neg_zero, Real.exp_zero]
  norm_num

lemma sigmoid_one_eq : sigmoid 1 = Real.exp 1 / (Real.exp 1 + 1) := by
  unfold sigmoid
  rw [Real.exp_neg]
  have h : Real.exp 1 ≠ 0 := ne_of_gt (Real.exp_pos 1)
  field_simp

lemma sigmoid_one_bounds : (0.7310585 : ℝ) < sigmoid 1 ∧ sigmoid 1 < 0.7310586 := by
  have h1 := Real.exp_one_gt_d9
  have h2 := Real.exp_one_lt_d9
  have h3 : (0 : ℝ) < Real.exp 1 + 1 := by positivity
  rw [sigmoid_one_eq]
  constructor
  · rw [lt_div_iff₀ h3]
    nlinarith
  · rw [div_lt_iff₀ h3]
    nlinarith

/-- Claim C1: node updates are synchronous: for every iteration `t ≥ 1` and
every non-clamped graph node `i`, the series entry at `t` is the activation of
the weighted sum of the entries at `t - 1`; in particular, on the 2-node
sigmoid graph `A → B` weight `1`, `B → A` weight `0`, `A = 1`, `B = 0`,
iteration 1 yields `B = sigmoid 1 = 0.7310585...` and `A = sigmoid 0 = 0.5`. -/
theorem C1_synchronous_update (p : SimParams α) (m : ℕ) (init : String → α)
    (i : String) (t : ℕ) (hi : i ∈ p.order) (hn : i ∉ p.clampedNodes)
    (ht1 : 1 ≤ t) (ht2 : t ≤ (runSimCore p m init).iterations) :
    ((runSimCore p m init).timeSeries i).getD t 0 =
      p.act ((p.order.map (fun j =>
        ((runSimCore p m init).timeSeries j).getD (t - 1) 0 * p.weight j i)).sum) ∧
    (runSimulationTop realActivation nodesC1 edgesC1 "sigmoid" (1 / 1000) 100 []
        (fun _ => none)).map
      (fun r => ((r.timeSeries "B").getD 1 0, (r.timeSeries "A").getD 1 0)) =
      Except.ok (sigmoid 1, 1 / 2) ∧
    (0.7310585 : ℝ) < sigmoid 1 ∧ sigmoid 1 < 0.7310586 := by
  refine ⟨?_, ?_, sigmoid_one_bounds.1, sigmoid_one_bounds.2⟩
  · obtain ⟨u, rfl⟩ : ∃ u, t = u + 1 := ⟨t - 1, by omega⟩
    rw [runSimCore_timeSeries_getD p m init i hi (u + 1) ht2,
      iterState_unclamped_succ p init i hi hn u]
    congr 1
    unfold weightedSum
    congr 1
    apply List.map_congr_left
    intro j hj
    rw [Nat.add_sub_cancel, runSimCore_timeSeries_getD p m init j hj u (by omega)]
  · rw [runTopC1]
    show Except.ok
      (((runSimCore pC1 100 (nodeValue nodesC1)).timeSeries "B").getD 1 0,
       ((runSimCore pC1 100 (nodeValue nodesC1)).timeSeries "A").getD 1 0) = _
    rw [runSimCore_timeSeries_getD pC1 100 (nodeValue nodesC1) "B" (by decide) 1
        (runSimCore_iterations_pos pC1 100 (nodeValue nodesC1) (by norm_num)),
      runSimCore_timeSeries_getD pC1 100 (nodeValue nodesC1) "A" (by decide) 1
        (runSimCore_iterations_pos pC1 100 (nodeValue nodesC1) (by norm_num)),
      iterC1_one_B, iterC1_one_A]

lemma tanh_half_eq : Real.tanh (1 / 2) = (Real.exp 1 - 1) / (Real.exp 1 + 1) := by
  have hu : (0 : ℝ) < Real.exp (1 / 2) := Real.exp_pos _
  have hne : Real.exp (1 / 2) ≠ 0 := ne_of_gt hu
  have huu : Real.exp (1 / 2) * Real.exp (1 / 2) = Real.exp 1 := by
    rw [← Real.exp_add]
    norm_num
  rw [Real.tanh_eq_sinh_div_cosh, Real.sinh_eq, Real.cosh_eq, Real.exp_neg, ← huu]
  have hd : Real.exp (1 / 2) + (Real.exp (1 / 2))⁻¹ ≠ 0 := by positivity
  have hd2 : Real.exp (1 / 2) * Real.exp (1 / 2) + 1 ≠ 0 := by positivity
  field_simp

lemma tanh_half_bounds :
    (0.462117 : ℝ) < Real.tanh (1 / 2) ∧ Real.tanh (1 / 2) < 0.462118 := by
  have h1 := Real.exp_one_gt_d9
  have h2 := Real.exp_one_lt_d9
  have h3 : (0 : ℝ) < Real.exp 1 + 1 := by positivity
  rw [tanh_half_eq]
  constructor
  · rw [lt_div_iff₀ h3]
    nlinarith
  · rw [div_lt_iff₀ h3]
    nlinarith

lemma stepC2_A (s : String → ℝ) : stepState pC2 s "A" = 0 := by
  show Real.tanh ((pC2.order.map (fun j => s j * pC2.weight j "A")).sum) = 0
  have h : (pC2.order.map (fun j => s j * pC2.weight j "A")).sum = 0 := by
    show s "A" * edgeWeight ["A", "B"] edgesC2 "A" "A" +
      (s "B" * edgeWeight ["A", "B"] edgesC2 "B" "A" + 0) = 0
    norm_num [show edgeWeight ["A", "B"] edgesC2 "A" "A" = (0 : ℝ) from rfl,
      show edgeWeight ["A", "B"] edgesC2 "B" "A" = (0 : ℝ) from rfl]
  rw [h, Real.tanh_zero]

lemma stepC2_B (s : String → ℝ) : stepState pC2 s "B" = Real.tanh (s "A" * (1 / 2)) := by
  show Real.tanh ((pC2.order.map (fun j => s j * pC2.weight j "B")).sum) = _
  congr 1
  show s "A" * edgeWeight ["A", "B"] edgesC2 "A" "B" +
    (s "B" * edgeWeight ["A", "B"] edgesC2 "B" "B" + 0) = s "A" * (1 / 2)
  norm_num [show edgeWeight ["A", "B"] edgesC2 "A" "B" = (1 / 2 : ℝ) from rfl,
    show edgeWeight ["A", "B"] edgesC2 "B" "B" = (0 : ℝ) from rfl]

lemma iterC2_A (t : ℕ) : iterState pC2 (nodeValue nodesC2) (t + 1) "A" = 0 := by
  rw [iterState_succ]
  exact stepC2_A _

lemma iterC2_B1 : iterState pC2 (nodeValue nodesC2) 1 "B" = Real.tanh (1 / 2) := by
  rw [show (1 : ℕ) = 0 + 1 from rfl, iterState_succ, stepC2_B, iterState_zero]
  norm_num [show nodeValue nodesC2 "A" = (1 : ℝ) from rfl]

lemma iterC2_B2 : iterState pC2 (nodeValue nodesC2) 2 "B" = 0 := by
  rw [show (2 : ℕ) = 1 + 1 from rfl, iterState_succ, stepC2_B, iterC2_A 0]
  norm_num [Real.tanh_zero]

lemma iterC2_B3 : iterState pC2 (nodeValue nodesC2) 3 "B" = 0 := by
  rw [show (3 : ℕ) = 2 + 1 from rfl, iterState_succ, stepC2_B, iterC2_A 1]
  norm_num [Real.tanh_zero]

lemma maxChangeC2 (s u : String → ℝ) :
    maxChange pC2 s u = max |u "A" - s "A"| (max |u "B" - s "B"| 0) :=
  rfl

lemma convC2_0 : ¬ convAt pC2 (nodeValue nodesC2) 0 := by
  unfold convAt
  rw [not_lt, maxChangeC2]
  have h : |iterState pC2 (nodeValue nodesC2) (0 + 1) "A" -
      iterState pC2 (nodeValue nodesC2) 0 "A"| = 1 := by
    rw [iterC2_A 0, iterState_zero]
    norm_num [show nodeValue nodesC2 "A" = (1 : ℝ) from rfl]
  have hth : pC2.threshold = 1 / 10000 := rfl
  rw [h, hth]
  exact le_trans (by norm_num : (1 / 10000 : ℝ) ≤ 1) (le_max_left _ _)

lemma convC2_1 : ¬ convAt pC2 (nodeValue nodesC2) 1 := by
  unfold convAt
  rw [not_lt, maxChangeC2]
  have h : |iterState pC2 (nodeValue nodesC2) (1 + 1) "B" -
      iterState pC2 (nodeValue nodesC2) 1 "B"| = Real.tanh (1 / 2) := by
    rw [show (1 + 1 : ℕ) = 2 from rfl, iterC2_B2, iterC2_B1]
    rw [zero_sub, abs_neg, abs_of_pos (by linarith [tanh_half_bounds.1])]
  have hth : pC2.threshold = 1 / 10000 := rfl
  rw [h, hth]
  refine le_trans ?_ (le_max_right _ _)
  refine le_trans ?_ (le_max_left _ _)
  have := tanh_half_bounds.1
  linarith

lemma convC2_2 : convAt pC2 (nodeValue nodesC2) 2 := by
  unfold convAt
  rw [maxChangeC2]
  rw [show (2 + 1 : ℕ) = 3 from rfl]
  rw [iterC2_B3, iterC2_B2, iterC2_A 2, iterC2_A 1]
  have hth : pC2.threshold = 1 / 10000 := rfl
  rw [hth]
  norm_num

lemma runC2_iterations : (runSimCore pC2 50 (nodeValue nodesC2)).iterations = 3 ∧
    (runSimCore pC2 50 (nodeValue nodesC2)).converged = true := by
  have h := simLoop_of_convAt pC2 2 50 (nodeValue nodesC2)
    (fun t ht => by
      interval_cases t
      · exact convC2_0
      · exact convC2_1)
    convC2_2 (by norm_num)
  exact ⟨h.1, h.2⟩

lemma runC2_tsA : ((runSimCore pC2 50 (nodeValue nodesC2)).timeSeries "A").getD 1 0 = 0 := by
  rw [runSimCore_timeSeries_getD pC2 50 (nodeValue nodesC2) "A" (by decide) 1
    (by rw [runC2_iterations.1]; norm_num), iterC2_A 0]

lemma runC2_tsB : ((runSimCore pC2 50 (nodeValue nodesC2)).timeSeries "B").getD 1 0 =
    Real.tanh (1 / 2) := by
  rw [runSimCore_timeSeries_getD pC2 50 (nodeValue nodesC2) "B" (by decide) 1
    (by rw [runC2_iterations.1]; norm_num), iterC2_B1]

lemma runC2_fA : (runSimCore pC2 50 (nodeValue nodesC2)).finalState "A" = 0 := by
  rw [runSimCore_finalState pC2 50 (nodeValue nodesC2) "A", runC2_iterations.1, iterC2_A 2]

lemma runC2_fB : (runSimCore pC2 50 (nodeValue nodesC2)).finalState "B" = 0 := by
  rw [runSimCore_finalState pC2 50 (nodeValue nodesC2) "B", runC2_iterations.1, iterC2_B3]

/-- Claim C2 counterexample: on the end-to-end tanh run (driver `A = 1`,
regular `B = 0`, edge `A → B` weight `0.5`, threshold `0.0001`, 50 max
iterations, no clamping) the engine sets `A` to `tanh 0 = 0` at iteration 1
(so `A` does not stay at `1`), and the final value of `B` is `0`, not
`tanh 0.5`; the run takes 3 iterations. -/
theorem C2_end_to_end_counterexample :
    (runSimulationTop realActivation nodesC2 edgesC2 "tanh" (1 / 10000) 50 []
        (fun _ => none)).map
      (fun r => ((r.timeSeries "A").getD 1 0, r.finalState "B", r.iterations)) =
      Except.ok (0, 0, 3) ∧
    (0 : ℝ) ≠ 1 ∧ Real.tanh (1 / 2) ≠ 0 := by
  refine ⟨?_, by norm_num, ne_of_gt (by linarith [tanh_half_bounds.1])⟩
  rw [runTopC2]
  show Except.ok
    (((runSimCore pC2 50 (nodeValue nodesC2)).timeSeries "A").getD 1 0,
     (runSimCore pC2 50 (nodeValue nodesC2)).finalState "B",
     (runSimCore pC2 50 (nodeValue nodesC2)).iterations) = _
  rw [runC2_tsA, runC2_fB, runC2_iterations.1]

/-- Claim C2 amended: the end-to-end tanh run converges after 3 of the 50
allowed iterations; `A`, having no incoming edges, is updated to
`tanh 0 = 0` at iteration 1 rather than staying at `1`; `B` reaches
`tanh 0.5 = 0.46211715...` at iteration 1 and then decays, and the final
state is `A = 0`, `B = 0`. -/
theorem C2_end_to_end_amended :
    (runSimulationTop realActivation nodesC2 edgesC2 "tanh" (1 / 10000) 50 []
        (fun _ => none)).map
      (fun r => (r.iterations, r.converged, (r.timeSeries "A").getD 1 0,
        (r.timeSeries "B").getD 1 0, r.finalState "A", r.finalState "B")) =
      Except.ok (3, true, 0, Real.tanh (1 / 2), 0, 0) ∧
    (0.462117 : ℝ) < Real.tanh (1 / 2) ∧ Real.tanh (1 / 2) < 0.462118 := by
  refine ⟨?_, tanh_half_bounds.1, tanh_half_bounds.2⟩
  rw [runTopC2]
  show Except.ok
    ((runSimCore pC2 50 (nodeValue nodesC2)).iterations,
     (runSimCore pC2 50 (nodeValue nodesC2)).converged,
     ((runSimCore pC2 50 (nodeValue nodesC2)).timeSeries "A").getD 1 0,
     ((runSimCore pC2 50 (nodeValue nodesC2)).timeSeries "B").getD 1 0,
     (runSimCore pC2 50 (nodeValue nodesC2)).finalState "A",
     (runSimCore pC2 50 (nodeValue nodesC2)).finalState "B") = _
  rw [runC2_tsA, runC2_tsB, runC2_fA, runC2_fB, runC2_iterations.1, runC2_iterations.2]

/-- Claim C1 witness: the synchronous-update equation instantiated on the
concrete `ℚ` run at node `A`, iteration `1`. -/
theorem C1_synchronous_update_witness :
    ((runSimCore demoParams 2 demoInit).timeSeries "A").getD 1 0 =
      demoParams.act ((demoParams.order.map (fun j =>
        ((runSimCore demoParams 2 demoInit).timeSeries j).getD 0 0 *
          demoParams.weight j "A")).sum) :=
  (C1_synchronous_update demoParams 2 demoInit "A" 1 (by decide) (by decide)
    (le_refl 1) (runSimCore_iterations_pos demoParams 2 demoInit (by norm_num))).1

end MettaSim

namespace MettaSim

/-- Claim C6: a completed comparison reports `converged` as the conjunction of
the two runs' flags, `iterations` as the maximum of the two runs' counts, and
a per-node `deltaFinalState` equal to the scenario final value minus the
baseline final value. -/
theorem C6_comparison_fields {α : Type} [LinearOrderedField α]
    (interp : ActName → α → α) (nodes : List (NodeIn α)) (edges : List (EdgeIn α))
    (actFn : String) (threshold : α) (maxIterations : ℕ)
    (modelIV scenarioIV : String → Option α) (clampedN : List String)
    (r : CompResult α) (b s : SimResult α)
    (hr : runComparison interp nodes edges actFn threshold maxIterations modelIV
      scenarioIV clampedN = Except.ok r)
    (hb : runSimulationTop interp (applyChangedValues nodes modelIV) edges actFn
      threshold maxIterations [] (fun _ => none) = Except.ok b)
    (hs : runSimulationTop interp (applyChangedValues nodes scenarioIV) edges actFn
      threshold maxIterations clampedN
      (clampedValuesFrom (applyChangedValues nodes scenarioIV) clampedN) =
      Except.ok s) :
    r.converged = (b.converged && s.converged) ∧
    r.iterations = max b.iterations s.iterations ∧
    ∀ i, r.deltaFinalState i = r.comparisonFinalState i - r.baselineFinalState i := by
  unfold runComparison at hr
  simp only [] at hr
  rw [hb, hs] at hr
  simp only [Except.ok.injEq] at hr
  subst hr
  exact ⟨rfl, rfl, fun i => rfl⟩

/-- Claim C6 witness: the field equations on a concrete `ℚ` comparison run. -/
theorem C6_comparison_fields_witness :
    c6Comp.converged = (c6Base.converged && c6Scen.converged) ∧
    c6Comp.iterations = max c6Base.iterations c6Scen.iterations ∧
    c6Comp.deltaFinalState "A" =
      c6Comp.comparisonFinalState "A" - c6Comp.baselineFinalState "A" :=
  have h := C6_comparison_fields interpQ qNodesDemo [] "sigmoid" 1 0
    (fun _ => none) (fun _ => none) [] c6Comp c6Base c6Scen rfl rfl rfl
  ⟨h.1, h.2.1, h.2.2 "A"⟩

lemma edgeWeight_filter_valid {α : Type} [LinearOrderedField α] (order : List String)
    (edges : List (EdgeIn α)) (s t : String) :
    edgeWeight order
      (edges.filter (fun e => decide (e.source ∈ order ∧ e.target ∈ order))) s t =
      edgeWeight order edges s t := by
  unfold edgeWeight
  rw [List.filter_filter]
  have h : (edges.filter (fun e =>
      decide (e.source = s ∧ e.target = t ∧ e.source ∈ order ∧ e.target ∈ order) &&
      decide (e.source ∈ order ∧ e.target ∈ order))) =
      edges.filter (fun e =>
        decide (e.source = s ∧ e.target = t ∧ e.source ∈ order ∧ e.target ∈ order)) := by
    apply List.filter_congr
    intro e _
    by_cases hc : e.source = s ∧ e.target = t ∧ e.source ∈ order ∧ e.target ∈ order
    · simp [hc, hc.2.2.1, hc.2.2.2]
    · simp [hc]
  rw [h]

/-- Claim C7: an empty node list fails construction with the no-nodes error
before anything runs; an unknown activation name fails construction with the
unknown-activation error; and an edge with an unknown endpoint is dropped:
construction behaves exactly as on the valid-edge subgraph, never failing
because of such an edge. -/
theorem C7_validation_and_edge_skipping {α : Type} [LinearOrderedField α]
    (nodes : List (NodeIn α)) (edges : List (EdgeIn α)) (actFn : String)
    (threshold : α) (maxIterations : ℕ) :
    fcmMake ([] : List (NodeIn α)) edges actFn threshold maxIterations =
      Except.error "No nodes provided for simulation" ∧
    (nodes.isEmpty = false → actFn ∉ ["sigmoid", "tanh", "relu"] →
      fcmMake nodes edges actFn threshold maxIterations =
        Except.error ("Unknown activation function: " ++ actFn)) ∧
    fcmMake nodes edges actFn threshold maxIterations =
      fcmMake nodes
        (edges.filter (fun e => decide (e.source ∈ insertionOrder nodes ∧
          e.target ∈ insertionOrder nodes))) actFn threshold maxIterations := by
  refine ⟨rfl, ?_, ?_⟩
  · intro h1 h2
    have h3 : actFn ≠ "sigmoid" := by intro h; rw [h] at h2; simp at h2
    have h4 : actFn ≠ "tanh" := by intro h; rw [h] at h2; simp at h2
    have h5 : actFn ≠ "relu" := by intro h; rw [h] at h2; simp at h2
    unfold fcmMake parseActivation
    rw [h1]
    simp [h3, h4, h5]
  · unfold fcmMake
    cases hemp : nodes.isEmpty
    · cases hpa : parseActivation actFn with
      | error e => simp [hpa]
      | ok a =>
        simp only [hpa, Bool.false_eq_true, if_false]
        congr 1
        refine Simulator.mk.injEq _ _ _ _ _ _ _ _ _ _ _ _ |>.mpr ?_
        refine ⟨rfl, rfl, ?_, rfl, rfl, rfl⟩
        funext s t
        exact (edgeWeight_filter_valid (insertionOrder nodes) edges s t).symm
    · simp

/-- Claim C7 witness: the three validation behaviours on concrete `ℚ`
inputs (the dangling edge `A → Z` is dropped). -/
theorem C7_validation_witness :
    fcmMake ([] : List (NodeIn ℚ)) [] "sigmoid" 1 0 =
      Except.error "No nodes provided for simulation" ∧
    fcmMake qNodesDemo [] "softmax" 1 0 =
      Except.error ("Unknown activation function: " ++ "softmax") ∧
    fcmMake qNodesDemo [⟨"A", "Z", 1⟩] "tanh" 1 0 =
      fcmMake qNodesDemo
        (([⟨"A", "Z", 1⟩] : List (EdgeIn ℚ)).filter (fun e =>
          decide (e.source ∈ insertionOrder qNodesDemo ∧
            e.target ∈ insertionOrder qNodesDemo))) "tanh" 1 0 :=
  ⟨(C7_validation_and_edge_skipping qNodesDemo ([] : List (EdgeIn ℚ)) "sigmoid" 1 0).1,
   (C7_validation_and_edge_skipping qNodesDemo ([] : List (EdgeIn ℚ)) "softmax" 1 0).2.1
     rfl (by decide),
   (C7_validation_and_edge_skipping qNodesDemo ([⟨"A", "Z", 1⟩] : List (EdgeIn ℚ))
     "tanh" 1 0).2.2⟩

lemma zip_self_diff_replicate {α : Type} [LinearOrderedField α] (l : List α) :
    ((l.zip l).map (fun q => q.1 - q.2)) = List.replicate l.length 0 := by
  induction l with
  | nil => rfl
  | cons x xs ih => simp [List.zip_cons_cons, List.replicate_succ, ih]

lemma foldr_max_replicate_zero {α : Type} [LinearOrderedField α] (n : ℕ) :
    (List.replicate n (0 : α)).foldr max 0 = 0 := by
  induction n with
  | zero => rfl
  | succ m ih => simp [List.replicate_succ, ih]

/-- Claim C8: for every `globalMaxChange` and every equal-length nonempty pair
of series whose element-wise difference is zero at every step, the fuzzy
direction classifier returns exactly `No Change`. -/
theorem C8_zero_diff_no_change {α : Type} [LinearOrderedField α]
    (baselineSeries scenarioSeries : List α) (globalMaxChange : α)
    (hlen : baselineSeries.length = scenarioSeries.length)
    (hpos : 0 < baselineSeries.length)
    (hzero : ∀ t, t < baselineSeries.length →
      scenarioSeries.getD t 0 - baselineSeries.getD t 0 = 0) :
    fuzzyCategorizeDirection baselineSeries scenarioSeries globalMaxChange =
      Except.ok "No Change" := by
  have hbne : baselineSeries ≠ [] := List.ne_nil_of_length_pos hpos
  have hsne : scenarioSeries ≠ [] := List.ne_nil_of_length_pos (by omega)
  have hss : scenarioSeries = baselineSeries := by
    apply List.ext_getElem (by omega)
    intro k hk1 hk2
    have h := hzero k (by omega)
    rw [List.getD_eq_getElem?_getD, List.getD_eq_getElem?_getD] at h
    rw [List.getElem?_eq_getElem hk1, List.getElem?_eq_getElem hk2] at h
    simp only [Option.getD_some] at h
    linarith
  subst hss
  unfold fuzzyCategorizeDirection
  rw [if_neg (by simp [hbne]), if_neg (by simp)]
  simp only [zip_self_diff_replicate, List.map_replicate, abs_zero,
    foldr_max_replicate_zero, zero_div]
  rw [if_pos (by norm_num)]

/-- Claim C8 witness: equal concrete series classify as `No Change` even for
a negative `globalMaxChange`. -/
theorem C8_zero_diff_no_change_witness :
    fuzzyCategorizeDirection ([0, 1] : List ℚ) [0, 1] (-5) = Except.ok "No Change" :=
  C8_zero_diff_no_change [0, 1] [0, 1] (-5) rfl (by norm_num)
    (fun t ht => by
      have h2 : t < 2 := by simpa using ht
      interval_cases t <;> norm_num)

end MettaSim

namespace MettaSim

lemma copyStep_next (acc : List ℕ × Heap) (a : ℕ) :
    (copyStep acc a).2.nextAddr = acc.2.nextAddr + 1 :=
  rfl

lemma copyStep_mem (acc : List ℕ × Heap) (a b : ℕ) (hb : b < acc.2.nextAddr) :
    (copyStep acc a).2.mem b = acc.2.mem b := by
  show (if b = acc.2.nextAddr then _ else acc.2.mem b) = acc.2.mem b
  rw [if_neg (by omega)]

lemma copyStep_addrs (acc : List ℕ × Heap) (a : ℕ) :
    (copyStep acc a).1 = acc.1 ++ [acc.2.nextAddr] :=
  rfl

lemma copyFold_spec (addrs : List ℕ) : ∀ (acc : List ℕ × Heap),
    acc.2.nextAddr ≤ (addrs.foldl copyStep acc).2.nextAddr ∧
    (∀ b, b < acc.2.nextAddr → (addrs.foldl copyStep acc).2.mem b = acc.2.mem b) ∧
    (∀ b ∈ (addrs.foldl copyStep acc).1, b ∈ acc.1 ∨ acc.2.nextAddr ≤ b) := by
  induction addrs with
  | nil => exact fun acc => ⟨le_refl _, fun b _ => rfl, fun b hb => Or.inl hb⟩
  | cons a as ih =>
    intro acc
    have h := ih (copyStep acc a)
    simp only [List.foldl_cons]
    refine ⟨?_, ?_, ?_⟩
    · have := h.1
      rw [copyStep_next] at this
      omega
    · intro b hb
      rw [h.2.1 b (by rw [copyStep_next]; omega), copyStep_mem acc a b hb]
    · intro b hb
      rcases h.2.2 b hb with hmem | hge
      · rw [copyStep_addrs] at hmem
        rcases List.mem_append.mp hmem with h1 | h1
        · exact Or.inl h1
        · simp at h1
          subst h1
          exact Or.inr (le_refl _)
      · rw [copyStep_next] at hge
        exact Or.inr (by omega)

lemma copyObjs_next (h : Heap) (addrs : List ℕ) :
    h.nextAddr ≤ (copyObjs h addrs).2.nextAddr :=
  (copyFold_spec addrs ([], h)).1

lemma copyObjs_mem (h : Heap) (addrs : List ℕ) (b : ℕ) (hb : b < h.nextAddr) :
    (copyObjs h addrs).2.mem b = h.mem b :=
  (copyFold_spec addrs ([], h)).2.1 b hb

lemma copyObjs_addrs_ge (h : Heap) (addrs : List ℕ) :
    ∀ b ∈ (copyObjs h addrs).1, h.nextAddr ≤ b := by
  intro b hb
  rcases (copyFold_spec addrs ([], h)).2.2 b hb with h1 | h1
  · simp at h1
  · exact h1

lemma applyIVStep_next (iv : String → Option ℚ) (hh : Heap) (a : ℕ) :
    (applyIVStep iv hh a).nextAddr = hh.nextAddr := by
  unfold applyIVStep
  cases iv (objId (hh.mem a)) <;> rfl

lemma applyIVStep_mem (iv : String → Option ℚ) (hh : Heap) (a b : ℕ) (hb : b ≠ a) :
    (applyIVStep iv hh a).mem b = hh.mem b := by
  unfold applyIVStep
  cases iv (objId (hh.mem a)) with
  | none => rfl
  | some v =>
    show (if b = a then _ else hh.mem b) = hh.mem b
    rw [if_neg hb]

lemma applyIVHeap_next (addrs : List ℕ) (iv : String → Option ℚ) :
    ∀ h : Heap, (applyIVHeap h addrs iv).nextAddr = h.nextAddr := by
  induction addrs with
  | nil => exact fun h => rfl
  | cons a as ih =>
    intro h
    show (applyIVHeap (applyIVStep iv h a) as iv).nextAddr = h.nextAddr
    rw [ih (applyIVStep iv h a), applyIVStep_next]

lemma applyIVHeap_mem (addrs : List ℕ) (iv : String → Option ℚ) :
    ∀ (h : Heap) (b : ℕ), (∀ a ∈ addrs, b ≠ a) →
      (applyIVHeap h addrs iv).mem b = h.mem b := by
  induction addrs with
  | nil => exact fun h b _ => rfl
  | cons a as ih =>
    intro h b hb
    show (applyIVHeap (applyIVStep iv h a) as iv).mem b = h.mem b
    rw [ih (applyIVStep iv h a) b (fun x hx => hb x (List.mem_cons_of_mem a hx)),
      applyIVStep_mem iv h a b (hb a (List.mem_cons_self a as))]

lemma simulationCallHeap_next (h : Heap) (na ea : List ℕ) :
    h.nextAddr ≤ (simulationCallHeap h na ea).nextAddr :=
  le_trans (copyObjs_next h na) (copyObjs_next (copyObjs h na).2 ea)

lemma simulationCallHeap_mem (h : Heap) (na ea : List ℕ) (b : ℕ)
    (hb : b < h.nextAddr) :
    (simulationCallHeap h na ea).mem b = h.mem b := by
  unfold simulationCallHeap
  rw [copyObjs_mem (copyObjs h na).2 ea b (lt_of_lt_of_le hb (copyObjs_next h na)),
    copyObjs_mem h na b hb]

lemma comparisonCallHeap_mem (h : Heap) (na ea : List ℕ)
    (miv siv : String → Option ℚ) (b : ℕ) (hb : b < h.nextAddr) :
    (comparisonCallHeap h na ea miv siv).mem b = h.mem b := by
  unfold comparisonCallHeap
  have hb1 : b < (copyObjs h na).2.nextAddr := lt_of_lt_of_le hb (copyObjs_next h na)
  have hb2 : b < (copyObjs (copyObjs h na).2 na).2.nextAddr :=
    lt_of_lt_of_le hb1 (copyObjs_next (copyObjs h na).2 na)
  have hbp : ∀ a ∈ (copyObjs h na).1, b ≠ a := by
    intro a ha
    have := copyObjs_addrs_ge h na a ha
    omega
  have hsp : ∀ a ∈ (copyObjs (copyObjs h na).2 na).1, b ≠ a := by
    intro a ha
    have := copyObjs_addrs_ge (copyObjs h na).2 na a ha
    omega
  have hn3 : (applyIVHeap (copyObjs (copyObjs h na).2 na).2 (copyObjs h na).1
      miv).nextAddr = (copyObjs (copyObjs h na).2 na).2.nextAddr :=
    applyIVHeap_next (copyObjs h na).1 miv _
  have hn4 : (applyIVHeap (applyIVHeap (copyObjs (copyObjs h na).2 na).2
      (copyObjs h na).1 miv) (copyObjs (copyObjs h na).2 na).1 siv).nextAddr =
      (copyObjs (copyObjs h na).2 na).2.nextAddr := by
    rw [applyIVHeap_next (copyObjs (copyObjs h na).2 na).1 siv _, hn3]
  rw [simulationCallHeap_mem _ _ ea b (by
      rw [show (simulationCallHeap (applyIVHeap (applyIVHeap
        (copyObjs (copyObjs h na).2 na).2 (copyObjs h na).1 miv)
        (copyObjs (copyObjs h na).2 na).1 siv) (copyObjs h na).1 ea).nextAddr =
        (simulationCallHeap _ (copyObjs h na).1 ea).nextAddr from rfl]
      exact lt_of_lt_of_le (by omega : b < (applyIVHeap (applyIVHeap
        (copyObjs (copyObjs h na).2 na).2 (copyObjs h na).1 miv)
        (copyObjs (copyObjs h na).2 na).1 siv).nextAddr)
        (simulationCallHeap_next _ (copyObjs h na).1 ea))]
  rw [simulationCallHeap_mem _ _ ea b (by omega)]
  rw [applyIVHeap_mem (copyObjs (copyObjs h na).2 na).1 siv _ b hsp]
  rw [applyIVHeap_mem (copyObjs h na).1 miv _ b hbp]
  rw [copyObjs_mem (copyObjs h na).2 na b hb1]
  rw [copyObjs_mem h na b hb]

/-- Claim C9: neither a simulation call nor a comparison call mutates any
caller-supplied node or edge dict: every dict living at a caller address
(below the allocation frontier) holds the same contents after either call;
all writes target the deep copies and fresh normalized dicts. -/
theorem C9_no_caller_mutation (h : Heap) (nodeAddrs edgeAddrs : List ℕ)
    (miv siv : String → Option ℚ)
    (hn : ∀ a ∈ nodeAddrs, a < h.nextAddr) (he : ∀ a ∈ edgeAddrs, a < h.nextAddr) :
    (∀ a ∈ nodeAddrs, (simulationCallHeap h nodeAddrs edgeAddrs).mem a = h.mem a) ∧
    (∀ a ∈ edgeAddrs, (simulationCallHeap h nodeAddrs edgeAddrs).mem a = h.mem a) ∧
    (∀ a ∈ nodeAddrs,
      (comparisonCallHeap h nodeAddrs edgeAddrs miv siv).mem a = h.mem a) ∧
    (∀ a ∈ edgeAddrs,
      (comparisonCallHeap h nodeAddrs edgeAddrs miv siv).mem a = h.mem a) :=
  ⟨fun a ha => simulationCallHeap_mem h _ _ a (hn a ha),
   fun a ha => simulationCallHeap_mem h _ _ a (he a ha),
   fun a ha => comparisonCallHeap_mem h _ _ miv siv a (hn a ha),
   fun a ha => comparisonCallHeap_mem h _ _ miv siv a (he a ha)⟩

/-- Claim C9 witness: on a concrete two-dict heap, the caller's node dict and
edge dict are untouched by a comparison call and a simulation call. -/
theorem C9_no_caller_mutation_witness :
    (comparisonCallHeap demoHeap [0] [1] demoIV demoIV).mem 0 = demoHeap.mem 0 ∧
    (simulationCallHeap demoHeap [0] [1]).mem 1 = demoHeap.mem 1 :=
  have h := C9_no_caller_mutation demoHeap [0] [1] demoIV demoIV
    (by intro a ha; simp at ha; subst ha; decide)
    (by intro a ha; simp at ha; subst ha; decide)
  ⟨h.2.2.1 0 (by simp), h.2.1 1 (by simp)⟩

/-- Claim C10: `run_simulation` writes the run's final state into the
instance's graph, so the instance's stored values equal the final state after
the call; a second call on the same instance therefore starts its time series
at the previous run's final state; the module-level entry point builds a
fresh simulator whose initial values are the constructor-time node values, so
it is unaffected. -/
theorem C10_instance_state_carryover {α : Type} [LinearOrderedField α]
    (sim : Simulator α) (interp : ActName → α → α)
    (cN cN' : List String) (cV cV' : String → Option α) (i : String)
    (hi : i ∈ sim.order) :
    ((sim.run interp cN cV).2.values i = (sim.run interp cN cV).1.finalState i) ∧
    ((((sim.run interp cN cV).2.run interp cN' cV').1.timeSeries i).getD 0 0 =
      (sim.run interp cN cV).1.finalState i) ∧
    (∀ (nodes : List (NodeIn α)) (edges : List (EdgeIn α)) (actFn : String)
      (th : α) (m : ℕ) (s0 : Simulator α),
      fcmMake nodes edges actFn th m = Except.ok s0 →
      runSimulationTop interp nodes edges actFn th m cN cV =
        Except.ok (s0.run interp cN cV).1 ∧
      (s0.run interp cN cV).1.initialValues = nodeValue nodes) := by
  refine ⟨?_, ?_, ?_⟩
  · rfl
  · have hgd := runSimCore_timeSeries_getD
      (((sim.run interp cN cV).2).toParams interp cN' cV')
      (sim.run interp cN cV).2.maxIterations
      (sim.run interp cN cV).2.values i hi 0 (Nat.zero_le _)
    rw [show (((sim.run interp cN cV).2.run interp cN' cV').1.timeSeries i) =
      ((runSimCore (((sim.run interp cN cV).2).toParams interp cN' cV')
        (sim.run interp cN cV).2.maxIterations
        (sim.run interp cN cV).2.values).timeSeries i) from rfl]
    rw [hgd, iterState_zero]
    rfl
  · intro nodes edges actFn th m s0 h
    constructor
    · unfold runSimulationTop
      rw [h]
    · have hval : s0.values = nodeValue nodes := by
        unfold fcmMake at h
        by_cases hemp : nodes.isEmpty
        · rw [if_pos hemp] at h
          cases h
        · rw [if_neg hemp] at h
          cases hpa : parseActivation actFn with
          | error e => rw [hpa] at h; cases h
          | ok a =>
            rw [hpa] at h
            have h2 := Except.ok.inj h
            rw [← h2]
      exact hval

/-- Claim C10 witness: the instance-state equations on a concrete `ℚ`
simulator. -/
theorem C10_instance_state_carryover_witness :
    (demoSim.run interpQ [] (fun _ => none)).2.values "A" =
      (demoSim.run interpQ [] (fun _ => none)).1.finalState "A" ∧
    (((demoSim.run interpQ [] (fun _ => none)).2.run interpQ []
        (fun _ => none)).1.timeSeries "A").getD 0 0 =
      (demoSim.run interpQ [] (fun _ => none)).1.finalState "A" ∧
    runSimulationTop interpQ qNodesDemo [] "sigmoid" 1 0 [] (fun _ => none) =
      Except.ok ((exceptGet demoSim (fcmMake qNodesDemo [] "sigmoid" 1 0)).run interpQ []
        (fun _ => none)).1 :=
  have h := C10_instance_state_carryover demoSim interpQ [] [] (fun _ => none)
    (fun _ => none) "A" (by decide)
  ⟨h.1, h.2.1,
   (h.2.2 qNodesDemo [] "sigmoid" 1 0
     (exceptGet demoSim (fcmMake qNodesDemo [] "sigmoid" 1 0)) rfl).1⟩

end MettaSim
